import Mathlib

/-!
Shallow embedding of the `contracted` library core: the tagged-error model
(`src/core/errors.ts`), command definition with the auto-wrapped and explicit
implementation paths (`defineCommand` in `src/core/defineContract.ts`),
service-contract definition (`defineService` in `src/core/defineService.ts`),
and the dependency-currying helper (`serviceFrom` / `serviceFromSimple` in
`src/core/serviceFrom.ts`).

Modelling conventions:
- Dynamically typed host values are the inductive `JSValue`; an object is a
  finite association list of fields, property lookup takes the first match.
- An async function that either resolves or rejects is a pure function into
  `Except JSValue _`: `.ok` is the resolved value of the settled promise,
  `.error` is the raised/rejected value.
- The result-container collaborator (neverthrow) is `NResult` with its two
  variants `ok` / `err`.
- Type-level placeholders of the source (the `types` field, the
  `dependencies` / `options` shape parameters) carry no runtime value in the
  source (empty object literals asserted to a type) and are dropped from the
  runtime model.
-/

/-- Runtime value of the dynamically typed host language: primitives plus
objects as association lists of named fields. -/
inductive JSValue where
  | vNull
  | vUndefined
  | vBool (b : Bool)
  | vNum (n : Int)
  | vStr (s : String)
  | vObj (fields : List (String × JSValue))

/-- Property lookup in an object's field list: first binding wins. -/
def lookupField : List (String × JSValue) → String → Option JSValue
  | [], _ => none
  | (k, v) :: rest, key => if k = key then some v else lookupField rest key

/-- Truthiness of a host value, as the condition `error && ...` evaluates it. -/
def JSValue.truthy : JSValue → Bool
  | .vNull => false
  | .vUndefined => false
  | .vBool b => b
  | .vNum n => n != 0
  | .vStr s => s != ""
  | .vObj _ => true

/-- Result of the host's typeof operator. Objects and null both report
"object"; null is separated from tagged errors by the truthiness test. -/
def JSValue.typeofStr : JSValue → String
  | .vNull => "object"
  | .vUndefined => "undefined"
  | .vBool _ => "boolean"
  | .vNum _ => "number"
  | .vStr _ => "string"
  | .vObj _ => "object"

/-- Field access `v[k]` on a value: only objects have fields. -/
def JSValue.getField : JSValue → String → Option JSValue
  | .vObj fields, k => lookupField fields k
  | _, _ => none

/-- The host's `k in v` membership test: true exactly when `v` is an object
carrying a field named `k`. -/
def JSValue.hasField (v : JSValue) (k : String) : Bool :=
  (v.getField k).isSome

/-- The structural tagged-error test performed in the catch block of the
auto-wrapped path (`defineContract.ts` line 260):
`error && typeof error === 'object' && '_tag' in error`. -/
def isTaggedErrorValue (e : JSValue) : Bool :=
  e.truthy && (e.typeofStr == "object") && e.hasField "_tag"

/-- The two-variant result container (neverthrow): `ok` holds a success value,
`err` holds an error value. -/
inductive NResult where
  | ok (v : JSValue)
  | err (e : JSValue)

/-! ## Tagged errors (`src/core/errors.ts`) -/

/-- The host-language `x || y` fallback on an optional string: a missing or
empty (falsy) string falls through to the alternative. -/
def jsOrString (a : Option String) (b : String) : String :=
  match a with
  | some s => if s = "" then b else s
  | none => b

/-- An error-kind constructor as produced by `defineError(tag, defaultMessage)`:
it remembers the tag and the default message. -/
structure ErrorKind where
  tag : String
  defaultMessage : Option String

/-- The `defineError` factory (`errors.ts` line 100): returns a constructor
class carrying the given tag and default message. -/
def defineError (tag : String) (defaultMessage : Option String) : ErrorKind :=
  { tag := tag, defaultMessage := defaultMessage }

/-- An instance of a tagged error: the discriminant tag, the message, the
typed data payload and the optional wrapped cause. -/
structure TaggedErrorInstance where
  tag : String
  message : String
  data : JSValue
  cause : Option JSValue

/-- Construction of an error instance by the class `defineError` returns
(`errors.ts` lines 114-120): the message falls back per
`message || defaultMessage || "Error: " ++ tag`. -/
def ErrorKind.construct (k : ErrorKind) (data : JSValue) (message : Option String)
    (cause : Option JSValue) : TaggedErrorInstance :=
  { tag := k.tag
  , message := jsOrString message (jsOrString k.defaultMessage ("Error: " ++ k.tag))
  , data := data
  , cause := cause }

/-- The host-object view of an error instance: its own fields as set by the
`TaggedError` base class and the `defineError` subclass body (`_tag`,
`message`, `data`, `cause`). This is the value that travels when the
instance is thrown. -/
def TaggedErrorInstance.toJSValue (e : TaggedErrorInstance) : JSValue :=
  .vObj [ ("_tag", .vStr e.tag)
        , ("message", .vStr e.message)
        , ("data", e.data)
        , ("cause", e.cause.getD .vUndefined) ]

/-- Handler lookup `handlers[tag]` in the handler map of `matchError`. -/
def lookupHandler {α : Type} :
    List (String × (TaggedErrorInstance → α)) → String → Option (TaggedErrorInstance → α)
  | [], _ => none
  | (k, h) :: rest, key => if k = key then some h else lookupHandler rest key

/-- The exhaustive-match dispatcher (`errors.ts` lines 149-163):
`const handler = handlers[error._tag]; if (!handler) throw new Error(...);
return handler(error);`. A missing handler key yields `undefined`, which is
falsy, so the raise happens exactly when the lookup fails; a present handler
is a function and therefore truthy. -/
def matchError {α : Type} (error : TaggedErrorInstance)
    (handlers : List (String × (TaggedErrorInstance → α))) : Except String α :=
  match lookupHandler handlers error.tag with
  | none => .error ("No handler for error tag: " ++ error.tag)
  | some handler => .ok (handler error)

/-! ## Command definition (`defineCommand` in `src/core/defineContract.ts`) -/

/-- A schema validator: `parse(unknown)` returns the validated value or raises
a structured validation failure. -/
def Validator : Type := JSValue → Except JSValue JSValue

/-- The context object passed to implementation functions
(`types.ts`, `ImplementationContext`): input, deps, optional options. -/
structure ImplementationContext where
  input : JSValue
  deps : JSValue
  options : Option JSValue

/-- An auto-wrapped implementation function (`UnsafeImplementationFunction` in
`types.ts`): resolves to a plain success value or raises. -/
def UnsafeImplementationFunction : Type :=
  ImplementationContext → Except JSValue JSValue

/-- An explicit implementation function (`ImplementationFunction` in
`types.ts`): resolves to an explicit `NResult` container (or raises). -/
def ImplementationFunction : Type :=
  ImplementationContext → Except JSValue NResult

/-- A dependency-bound callable (`CurriedImplementation` in `types.ts`):
takes only input and optional options. -/
def CurriedImplementation : Type :=
  JSValue → Option JSValue → Except JSValue NResult

/-- The `schemas` record of a contract: the input and output validators as
supplied at definition time. -/
structure Schemas where
  input : Validator
  output : Validator

/-- A fully implemented contract (`ImplementedContract`): contract metadata
plus `run`, `withDependencies` and the validation pass-throughs. -/
structure ImplementedContract where
  schemas : Schemas
  errors : List ErrorKind
  run : ImplementationFunction
  withDependencies : JSValue → CurriedImplementation
  validateInput : Validator
  validateOutput : Validator

/-- A contract definition (`Contract`): metadata plus the two
implementation-attachment methods. -/
structure Contract where
  schemas : Schemas
  errors : List ErrorKind
  implementation : UnsafeImplementationFunction → ImplementedContract
  unsafeImplementation : ImplementationFunction → ImplementedContract

/-- Parameters of `defineCommand`: the input and output validators and the
optional declared error kinds (the dependency and options shape parameters
are type-level only and carry no runtime value). -/
structure CommandParams where
  input : Validator
  output : Validator
  errors : Option (List ErrorKind)

/-- The wrapper the auto-wrapped path builds around `impl`
(`defineContract.ts` lines 254-266): await the implementation; a normal
completion becomes `ok(result)`; a raised value that passes the structural
tagged-error test becomes `err(error)`; any other raised value is re-thrown. -/
def wrapImplementation (impl : UnsafeImplementationFunction) : ImplementationFunction :=
  fun context =>
    match impl context with
    | .ok result => .ok (NResult.ok result)
    | .error e =>
      if isTaggedErrorValue e then .ok (NResult.err e)
      else .error e

/-- The `defineCommand` entry point (`defineContract.ts` lines 211-294):
builds the contract record with its schemas and declared error kinds
(defaulting to the empty list) and the two attachment methods. Each
attachment spreads the contract's metadata into the implemented record and
adds `run`, `withDependencies` and the validator pass-throughs; the
auto-wrapped path wraps the supplied function with `wrapImplementation`,
the explicit path installs it verbatim. -/
def defineCommand (params : CommandParams) : Contract :=
  let errors := params.errors.getD []
  let schemas : Schemas := { input := params.input, output := params.output }
  { schemas := schemas
  , errors := errors
  , implementation := fun impl =>
      let wrappedImpl := wrapImplementation impl
      { schemas := schemas
      , errors := errors
      , run := wrappedImpl
      , withDependencies := fun deps =>
          fun input options => wrappedImpl { input := input, deps := deps, options := options }
      , validateInput := fun input => params.input input
      , validateOutput := fun output => params.output output }
  , unsafeImplementation := fun impl =>
      { schemas := schemas
      , errors := errors
      , run := impl
      , withDependencies := fun deps =>
          fun input options => impl { input := input, deps := deps, options := options }
      , validateInput := fun input => params.input input
      , validateOutput := fun output => params.output output } }

/-- Deprecated alias kept by the source (`defineContract.ts` line 299). -/
def defineContract : CommandParams → Contract := defineCommand

/-! ## Dependency currying (`src/core/serviceFrom.ts`) -/

/-- A per-command record of a service instance (`ServiceWithContracts` entry):
all contract metadata with `run` replaced by the dependency-bound callable. -/
structure ServiceCommand where
  schemas : Schemas
  errors : List ErrorKind
  validateInput : Validator
  validateOutput : Validator
  run : CurriedImplementation

/-- A service instance: the record from command name to bound command, in the
iteration order of the implementations object. -/
abbrev Service : Type := List (String × ServiceCommand)

/-- The `serviceFrom` factory (`serviceFrom.ts` lines 143-168): given the
implemented commands, returns a function of the dependency bundle that, per
named command, curries `run` through `withDependencies(deps)` and rebuilds
the record with the contract metadata preserved. -/
def serviceFrom (commands : List (String × ImplementedContract)) :
    JSValue → Service :=
  fun deps =>
    commands.map (fun entry =>
      let contract := entry.2
      let curriedCommand := contract.withDependencies deps
      (entry.1,
        { schemas := contract.schemas
        , errors := contract.errors
        , validateInput := contract.validateInput
        , validateOutput := contract.validateOutput
        , run := curriedCommand }))

/-- The simplified factory (`serviceFrom.ts` lines 201-215): the same currying
with the metadata dropped, keeping only the bound callable per name. -/
def serviceFromSimple (commands : List (String × ImplementedContract)) :
    JSValue → List (String × CurriedImplementation) :=
  fun deps =>
    commands.map (fun entry => (entry.1, entry.2.withDependencies deps))

/-! ## Service contracts (`src/core/defineService.ts`) -/

/-- Key membership in an association list, the `name in object` test. -/
def containsKey {α : Type} (l : List (String × α)) (k : String) : Bool :=
  l.any (fun entry => entry.1 == k)

/-- The completeness loop of `ServiceContract.implementation`
(`defineService.ts` lines 134-138) walks the declared contracts in order and
throws at the first name missing from the implementations object; this
helper returns that first missing name, if any. -/
def firstMissing {α β : Type} :
    List (String × α) → List (String × β) → Option String
  | [], _ => none
  | (name, _) :: rest, implementations =>
    if containsKey implementations name then firstMissing rest implementations
    else some name

/-- A service contract (`ServiceContract`): the declared contracts plus the
`implementation` method. -/
structure ServiceContract where
  contracts : List (String × Contract)
  implementation : List (String × ImplementedContract) →
    Except String (JSValue → Service)

/-- The `defineService` entry point (`defineService.ts` lines 119-165): stores
the contracts; `implementation` first checks that every declared contract
name has an implementation, throwing "Missing implementation for contract:
name" at the first missing one, and otherwise returns a factory that walks
the entries of the implementations object (not the declared contracts),
curries each command with the supplied dependency bundle, and assembles the
per-name service record with the metadata preserved. -/
def defineService (contracts : List (String × Contract)) : ServiceContract :=
  { contracts := contracts
  , implementation := fun implementations =>
      match firstMissing contracts implementations with
      | some contractName =>
        .error ("Missing implementation for contract: " ++ contractName)
      | none =>
        .ok (fun deps =>
          implementations.map (fun entry =>
            let implementation := entry.2
            let curriedCommand := implementation.withDependencies deps
            (entry.1,
              { schemas := implementation.schemas
              , errors := implementation.errors
              , validateInput := implementation.validateInput
              , validateOutput := implementation.validateOutput
              , run := curriedCommand }))) }

/-! ## Concrete fixtures

Small closed values mirroring the repository's own example scenario (a
USER_NOT_FOUND error kind with a userId payload), used to instantiate the
theorems below on concrete inputs. -/

/-- Identity validator standing in for a concrete schema in fixtures. -/
def idValidator : Validator := fun v => .ok v

/-- The USER_NOT_FOUND error kind of the spec's concrete scenario. -/
def sampleErrorKind : ErrorKind :=
  defineError "USER_NOT_FOUND" (some "The requested user could not be found")

/-- Command parameters declaring the sample error kind. -/
def sampleParams : CommandParams :=
  { input := idValidator, output := idValidator, errors := some [sampleErrorKind] }

/-- A concrete call context. -/
def sampleContext : ImplementationContext :=
  { input := .vObj [("userId", .vStr "42")], deps := .vObj [], options := none }

/-- The sample error payload. -/
def sampleData : JSValue := .vObj [("userId", .vStr "42")]

/-- A concrete instance of the sample error kind. -/
def sampleInstance : TaggedErrorInstance :=
  sampleErrorKind.construct sampleData none none

/-- An implementation that raises the sample (declared) tagged error. -/
def sampleRaisingImpl : UnsafeImplementationFunction :=
  fun _ => .error sampleInstance.toJSValue

/-! ## C1-C5, C7: the two implementation paths of defineCommand -/

/-- C1: for every command built with defineCommand and implemented via the
auto-wrapped path, if the implementation function resolves to a value v
without raising, then run(context) resolves to the success variant of the
Result container holding exactly v. -/
theorem run_resolves_success_of_impl_success
    (params : CommandParams) (impl : UnsafeImplementationFunction)
    (context : ImplementationContext) (v : JSValue)
    (h : impl context = .ok v) :
    ((defineCommand params).implementation impl).run context
      = .ok (NResult.ok v) := by
  simp [defineCommand, wrapImplementation, h]

/-- Witness for C1 at a concrete command, implementation and context. -/
theorem run_resolves_success_of_impl_success_witness :
    ((defineCommand sampleParams).implementation
        (fun _ => .ok (.vStr "out"))).run sampleContext
      = .ok (NResult.ok (.vStr "out")) :=
  run_resolves_success_of_impl_success sampleParams _ sampleContext _ rfl

/-- C2: for every command implemented via the auto-wrapped path, if the
implementation raises an instance of a declared error kind E carrying
payload d, run(context) resolves (does not re-raise) to the failure variant
of the Result container whose error value has tag equal to E's tag and data
equal to d. -/
theorem run_resolves_failure_of_declared_tagged_raise
    (params : CommandParams) (impl : UnsafeImplementationFunction)
    (context : ImplementationContext) (kind : ErrorKind) (d : JSValue)
    (message : Option String) (cause : Option JSValue)
    (_hdecl : kind ∈ (defineCommand params).errors)
    (h : impl context = .error ((kind.construct d message cause).toJSValue)) :
    ((defineCommand params).implementation impl).run context
        = .ok (NResult.err ((kind.construct d message cause).toJSValue))
      ∧ ((kind.construct d message cause).toJSValue).getField "_tag"
          = some (.vStr kind.tag)
      ∧ ((kind.construct d message cause).toJSValue).getField "data" = some d := by
  refine ⟨?_, ?_, ?_⟩
  · simp [defineCommand, wrapImplementation, h, isTaggedErrorValue,
      TaggedErrorInstance.toJSValue, JSValue.truthy, JSValue.typeofStr,
      JSValue.hasField, JSValue.getField, lookupField]
  · simp [TaggedErrorInstance.toJSValue, ErrorKind.construct,
      JSValue.getField, lookupField]
  · simp [TaggedErrorInstance.toJSValue, ErrorKind.construct,
      JSValue.getField, lookupField]

/-- Witness for C2 at the concrete USER_NOT_FOUND scenario. -/
theorem run_resolves_failure_of_declared_tagged_raise_witness :
    ((defineCommand sampleParams).implementation sampleRaisingImpl).run sampleContext
        = .ok (NResult.err ((sampleErrorKind.construct sampleData none none).toJSValue))
      ∧ ((sampleErrorKind.construct sampleData none none).toJSValue).getField "_tag"
          = some (.vStr sampleErrorKind.tag)
      ∧ ((sampleErrorKind.construct sampleData none none).toJSValue).getField "data"
          = some sampleData :=
  run_resolves_failure_of_declared_tagged_raise sampleParams sampleRaisingImpl
    sampleContext sampleErrorKind sampleData none none
    (List.mem_singleton_self _) rfl

/-- C3: for every command implemented via the auto-wrapped path, if the
implementation raises a value that does not structurally carry a tag field,
run(context) does not resolve to a Result: the raised value propagates
unchanged to the caller of run. -/
theorem run_propagates_untagged_raise
    (params : CommandParams) (impl : UnsafeImplementationFunction)
    (context : ImplementationContext) (e : JSValue)
    (h : impl context = .error e)
    (hno : e.hasField "_tag" = false) :
    ((defineCommand params).implementation impl).run context = .error e := by
  have ht : isTaggedErrorValue e = false := by
    simp [isTaggedErrorValue, hno]
  simp [defineCommand, wrapImplementation, h, ht]

/-- Witness for C3: a raised plain string propagates. -/
theorem run_propagates_untagged_raise_witness :
    ((defineCommand sampleParams).implementation
        (fun _ => .error (.vStr "boom"))).run sampleContext
      = .error (.vStr "boom") :=
  run_propagates_untagged_raise sampleParams _ sampleContext _ rfl rfl

/-- C5: for every command implemented via the explicit path and every context,
the Result that run(context) settles to is exactly the Result value the
supplied implementation function itself returned, with no wrapping,
catching, or reinterpretation by the library. -/
theorem unsafeImplementation_run_verbatim
    (params : CommandParams) (impl : ImplementationFunction)
    (context : ImplementationContext) :
    ((defineCommand params).unsafeImplementation impl).run context
      = impl context := rfl

/-- C7: attaching an implementation by either method leaves the contract's
metadata unchanged: the ImplementedContract returned by each method exposes
the same schemas and the same errors list as the contract. (The original
contract value itself is a pure value in this embedding and cannot be
mutated by either call.) -/
theorem implementation_preserves_metadata
    (params : CommandParams) (impl : UnsafeImplementationFunction)
    (safeImpl : ImplementationFunction) :
    (((defineCommand params).implementation impl).schemas
        = (defineCommand params).schemas
      ∧ ((defineCommand params).implementation impl).errors
        = (defineCommand params).errors)
    ∧ (((defineCommand params).unsafeImplementation safeImpl).schemas
        = (defineCommand params).schemas
      ∧ ((defineCommand params).unsafeImplementation safeImpl).errors
        = (defineCommand params).errors) :=
  ⟨⟨rfl, rfl⟩, ⟨rfl, rfl⟩⟩

/-! ## C9: the exhaustive-match dispatcher -/

/-- C9: for every tagged error value e and handler map h, matchError(e, h)
raises an error identifying e's tag when h has no handler for that tag, and
otherwise returns exactly the value produced by applying the matched handler
to e, with no transformation of the handler's result. -/
theorem matchError_raises_or_dispatches {α : Type} (error : TaggedErrorInstance)
    (handlers : List (String × (TaggedErrorInstance → α))) :
    (lookupHandler handlers error.tag = none →
      matchError error handlers
        = .error ("No handler for error tag: " ++ error.tag))
    ∧ (∀ handler, lookupHandler handlers error.tag = some handler →
      matchError error handlers = .ok (handler error)) := by
  constructor
  · intro h; simp [matchError, h]
  · intro handler h; simp [matchError, h]

/-- Witness for C9: the sample error against an empty handler map raises with
its tag in the message; against a map handling its tag, the handler's result
is returned as-is. -/
theorem matchError_raises_or_dispatches_witness :
    matchError sampleInstance ([] : List (String × (TaggedErrorInstance → String)))
        = .error "No handler for error tag: USER_NOT_FOUND"
    ∧ matchError sampleInstance [("USER_NOT_FOUND", fun e => e.message)]
        = .ok sampleInstance.message := by
  constructor
  · exact (matchError_raises_or_dispatches sampleInstance []).1 rfl
  · exact (matchError_raises_or_dispatches sampleInstance
      [("USER_NOT_FOUND", fun e => e.message)]).2 _ rfl

/-! ## C4: what the catch block actually filters on

The catch block of the auto-wrapped path tests only the structural shape of
the raised value (truthy, of object type, carrying a "_tag" field); it never
consults the command's declared errorKinds list. A raised tagged error whose
kind is not declared is therefore still placed in the Result's failure slot. -/

/-- Command parameters declaring no error kinds at all. -/
def noErrorsParams : CommandParams :=
  { input := idValidator, output := idValidator, errors := some [] }

/-- An error kind that appears in no command's declared errorKinds. -/
def undeclaredKind : ErrorKind := defineError "UNDECLARED" none

/-- A concrete instance of the undeclared kind. -/
def undeclaredInstance : TaggedErrorInstance :=
  undeclaredKind.construct (.vObj []) none none

/-- An implementation that raises the undeclared tagged error. -/
def undeclaredRaisingImpl : UnsafeImplementationFunction :=
  fun _ => .error undeclaredInstance.toJSValue

/-- Counterexample to C4: a command declaring no error kinds, whose
auto-wrapped implementation raises a tagged error of the undeclared kind
UNDECLARED, has run resolve to the failure variant holding that error - the
raise does not propagate and the failure slot holds an instance of a kind
outside the declared errorKinds. -/
theorem undeclared_tagged_raise_lands_in_failure_slot :
    (defineCommand noErrorsParams).errors = []
    ∧ ((defineCommand noErrorsParams).implementation undeclaredRaisingImpl).run
          sampleContext
        = .ok (NResult.err undeclaredInstance.toJSValue)
    ∧ undeclaredInstance.tag ∉
        (defineCommand noErrorsParams).errors.map ErrorKind.tag :=
  ⟨rfl, rfl, by simp [defineCommand, noErrorsParams]⟩

/-- C4 amended: for every command implemented via the auto-wrapped path, a
raised value is placed in the Result's failure slot exactly when it passes
the structural tagged-error test (truthy, of object type, carrying a "_tag"
field) - regardless of whether its tag belongs to the command's declared
errorKinds; every other raised value propagates to the caller of run. -/
theorem run_failure_slot_iff_structural_tag
    (params : CommandParams) (impl : UnsafeImplementationFunction)
    (context : ImplementationContext) (e : JSValue)
    (h : impl context = .error e) :
    ((defineCommand params).implementation impl).run context
      = (if isTaggedErrorValue e then .ok (NResult.err e) else .error e) := by
  simp [defineCommand, wrapImplementation, h]

/-- Witness for the amended C4 at the undeclared-kind raise. -/
theorem run_failure_slot_iff_structural_tag_witness :
    ((defineCommand noErrorsParams).implementation undeclaredRaisingImpl).run
        sampleContext
      = (if isTaggedErrorValue undeclaredInstance.toJSValue
          then .ok (NResult.err undeclaredInstance.toJSValue)
          else .error undeclaredInstance.toJSValue) :=
  run_failure_slot_iff_structural_tag noErrorsParams undeclaredRaisingImpl
    sampleContext undeclaredInstance.toJSValue rfl

/-! ## Helper lemmas on key lookup for the service layer -/

/-- Unfolding lemma: key membership in a cons cell. -/
theorem containsKey_cons {α : Type} (k : String) (v : α)
    (l : List (String × α)) (key : String) :
    containsKey ((k, v) :: l) key = ((k == key) || containsKey l key) := by
  simp [containsKey]

/-- The completeness walk finds no missing name exactly when every declared
name has an implementation. -/
theorem firstMissing_none_iff {α β : Type} (contracts : List (String × α))
    (implementations : List (String × β)) :
    firstMissing contracts implementations = none
      ↔ ∀ name, containsKey contracts name = true →
          containsKey implementations name = true := by
  induction contracts with
  | nil => simp [firstMissing, containsKey]
  | cons head rest ih =>
    obtain ⟨hname, hval⟩ := head
    by_cases hk : containsKey implementations hname = true
    · rw [firstMissing, if_pos hk, ih]
      constructor
      · intro h name hmem
        rw [containsKey_cons] at hmem
        by_cases heq : (hname == name) = true
        · rw [← eq_of_beq heq]; exact hk
        · rw [Bool.not_eq_true] at heq
          rw [heq, Bool.false_or] at hmem
          exact h name hmem
      · intro h name hmem
        exact h name (by rw [containsKey_cons, hmem, Bool.or_true])
    · rw [firstMissing, if_neg hk]
      constructor
      · intro h; exact Option.noConfusion h
      · intro h
        exact absurd (h hname (by simp [containsKey_cons])) hk

/-- A name returned by the completeness walk is a declared name that lacks an
implementation. -/
theorem firstMissing_mem {α β : Type} (contracts : List (String × α))
    (implementations : List (String × β)) (name : String)
    (h : firstMissing contracts implementations = some name) :
    containsKey contracts name = true
      ∧ containsKey implementations name = false := by
  induction contracts with
  | nil => exact Option.noConfusion h
  | cons head rest ih =>
    obtain ⟨hname, hval⟩ := head
    by_cases hk : containsKey implementations hname = true
    · rw [firstMissing, if_pos hk] at h
      obtain ⟨h1, h2⟩ := ih h
      exact ⟨by rw [containsKey_cons, h1, Bool.or_true], h2⟩
    · rw [firstMissing, if_neg hk] at h
      obtain rfl : hname = name := Option.some.inj h
      exact ⟨by simp [containsKey_cons], Bool.eq_false_iff.mpr hk⟩

/-- Superset discharge for a single-contract service: if the implementations
object carries the one declared key, it covers every declared key. -/
theorem containsKey_superset_single {α β : Type} (k : String) (a : α)
    (l : List (String × β)) (hk : containsKey l k = true) :
    ∀ name, containsKey [(k, a)] name = true → containsKey l name = true := by
  intro name h
  rw [containsKey_cons] at h
  by_cases heq : (k == name) = true
  · rw [← eq_of_beq heq]; exact hk
  · rw [Bool.not_eq_true] at heq
    rw [heq, Bool.false_or] at h
    exact absurd h (by simp [containsKey])

/-! ## Service fixtures -/

/-- A concrete command contract for the service fixtures. -/
def sampleCommand : Contract := defineCommand sampleParams

/-- A concrete implemented command. -/
def createUserImpl : ImplementedContract :=
  sampleCommand.implementation (fun context => .ok context.input)

/-- A second implemented command, used under a key no contract declares. -/
def extraImpl : ImplementedContract :=
  sampleCommand.implementation (fun _ => .ok (.vStr "extra"))

/-- A one-command service-contract mapping. -/
def sampleContracts : List (String × Contract) := [("createUser", sampleCommand)]

/-- An implementations mapping exactly covering the declared contracts. -/
def sampleImplementations : List (String × ImplementedContract) :=
  [("createUser", createUserImpl)]

/-- An implementations mapping with an extra, undeclared key. -/
def sampleImplementationsExtra : List (String × ImplementedContract) :=
  [("createUser", createUserImpl), ("extra", extraImpl)]

/-- A concrete dependency bundle. -/
def depsSample : JSValue := .vObj [("userRepo", .vStr "repo")]

/-! ## C6, C8, C10: defineService -/

/-- Unfolding lemma for the implementation method of defineService: the
completeness check followed by the factory over the implementations map. -/
theorem defineService_implementation_eq
    (contracts : List (String × Contract))
    (implementations : List (String × ImplementedContract)) :
    (defineService contracts).implementation implementations
      = match firstMissing contracts implementations with
        | some contractName =>
          .error ("Missing implementation for contract: " ++ contractName)
        | none =>
          .ok (fun deps =>
            implementations.map (fun entry =>
              (entry.1,
                { schemas := entry.2.schemas
                , errors := entry.2.errors
                , validateInput := entry.2.validateInput
                , validateOutput := entry.2.validateOutput
                , run := entry.2.withDependencies deps }))) := rfl

/-- C6: for every service contract and implementations map, implementation
raises immediately, identifying a missing command name, if some declared key
is absent from the map; and it succeeds, returning a factory, whenever the
map's keys are a superset of the declared keys (extra keys are not an
error). -/
theorem serviceContract_implementation_completeness
    (contracts : List (String × Contract))
    (implementations : List (String × ImplementedContract)) :
    ((∃ name, containsKey contracts name = true
        ∧ containsKey implementations name = false) →
      ∃ missing, containsKey contracts missing = true
        ∧ containsKey implementations missing = false
        ∧ (defineService contracts).implementation implementations
            = .error ("Missing implementation for contract: " ++ missing))
    ∧ ((∀ name, containsKey contracts name = true →
          containsKey implementations name = true) →
      ∃ factory, (defineService contracts).implementation implementations
          = .ok factory) := by
  constructor
  · rintro ⟨name, h1, h2⟩
    have hne : firstMissing contracts implementations ≠ none := by
      intro heq
      have hall := (firstMissing_none_iff contracts implementations).mp heq
      rw [hall name h1] at h2
      exact Bool.noConfusion h2
    obtain ⟨missing, hm⟩ := Option.ne_none_iff_exists'.mp hne
    obtain ⟨hc1, hc2⟩ := firstMissing_mem contracts implementations missing hm
    refine ⟨missing, hc1, hc2, ?_⟩
    rw [defineService_implementation_eq, hm]
  · intro h
    have hnone : firstMissing contracts implementations = none :=
      (firstMissing_none_iff contracts implementations).mpr h
    refine ⟨fun deps =>
      implementations.map (fun entry =>
        (entry.1,
          { schemas := entry.2.schemas
          , errors := entry.2.errors
          , validateInput := entry.2.validateInput
          , validateOutput := entry.2.validateOutput
          , run := entry.2.withDependencies deps })), ?_⟩
    rw [defineService_implementation_eq, hnone]

/-- Witness for C6: the one-command service rejects the empty map naming the
missing command, and accepts a map with an extra key. -/
theorem serviceContract_implementation_completeness_witness :
    (∃ missing, containsKey sampleContracts missing = true
        ∧ containsKey ([] : List (String × ImplementedContract)) missing = false
        ∧ (defineService sampleContracts).implementation []
            = .error ("Missing implementation for contract: " ++ missing))
    ∧ (∃ factory,
        (defineService sampleContracts).implementation sampleImplementationsExtra
          = .ok factory) := by
  constructor
  · exact (serviceContract_implementation_completeness sampleContracts []).1
      ⟨"createUser", by simp [sampleContracts, containsKey], rfl⟩
  · exact (serviceContract_implementation_completeness sampleContracts
      sampleImplementationsExtra).2
      (containsKey_superset_single "createUser" sampleCommand _
        (by simp [sampleImplementationsExtra, containsKey]))

/-- C8: for every implementations map passing the completeness check and
every dependency bundle, the Service the defineService factory produces is,
per command name, the record serviceFrom produces from the same map and
bundle: the same schemas, errors, validateInput, validateOutput and the run
curried over deps via withDependencies. The factory is a pure function of
the dependency bundle, so each invocation yields a value depending on
nothing but its own bundle - there is no shared mutable state between
instances. -/
theorem serviceContract_factory_eq_serviceFrom
    (contracts : List (String × Contract))
    (implementations : List (String × ImplementedContract)) (deps : JSValue)
    (h : ∀ name, containsKey contracts name = true →
        containsKey implementations name = true) :
    ∃ factory, (defineService contracts).implementation implementations
        = .ok factory
      ∧ factory deps = serviceFrom implementations deps := by
  have hnone : firstMissing contracts implementations = none :=
    (firstMissing_none_iff contracts implementations).mpr h
  refine ⟨fun d =>
    implementations.map (fun entry =>
      (entry.1,
        { schemas := entry.2.schemas
        , errors := entry.2.errors
        , validateInput := entry.2.validateInput
        , validateOutput := entry.2.validateOutput
        , run := entry.2.withDependencies d })), ?_, ?_⟩
  · rw [defineService_implementation_eq, hnone]
  · rfl

/-- Witness for C8 at the concrete one-command service. -/
theorem serviceContract_factory_eq_serviceFrom_witness :
    ∃ factory,
      (defineService sampleContracts).implementation sampleImplementations
          = .ok factory
        ∧ factory depsSample = serviceFrom sampleImplementations depsSample :=
  serviceContract_factory_eq_serviceFrom sampleContracts sampleImplementations
    depsSample
    (containsKey_superset_single "createUser" sampleCommand _
      (by simp [sampleImplementations, containsKey]))

/-- C10: the factory returned by a successful implementation call iterates
the implementations map, not the declared contracts: every key of the map -
extra keys included - yields a dependency-bound command record in the
produced Service, with the metadata of that implementation and run bound
through withDependencies. -/
theorem serviceContract_factory_iterates_implementations
    (contracts : List (String × Contract))
    (implementations : List (String × ImplementedContract)) (deps : JSValue)
    (factory : JSValue → Service)
    (h : (defineService contracts).implementation implementations
        = .ok factory) :
    (factory deps).map Prod.fst = implementations.map Prod.fst
    ∧ ∀ name impl, (name, impl) ∈ implementations →
        (name,
          ({ schemas := impl.schemas
           , errors := impl.errors
           , validateInput := impl.validateInput
           , validateOutput := impl.validateOutput
           , run := impl.withDependencies deps } : ServiceCommand))
          ∈ factory deps := by
  rw [defineService_implementation_eq] at h
  rcases hfm : firstMissing contracts implementations with _ | missing
  · rw [hfm] at h
    obtain rfl : _ = factory := Except.ok.inj h
    constructor
    · rw [List.map_map]
      rfl
    · intro name impl hmem
      exact List.mem_map_of_mem _ hmem
  · rw [hfm] at h
    exact Except.noConfusion h

/-- Witness for C10: with one declared contract and a map carrying the extra
key "extra", the produced service has both keys and contains the bound
record for the extra implementation. -/
theorem serviceContract_factory_iterates_implementations_witness :
    ∃ factory,
      (defineService sampleContracts).implementation sampleImplementationsExtra
          = .ok factory
        ∧ (factory depsSample).map Prod.fst = ["createUser", "extra"]
        ∧ ("extra",
            ({ schemas := extraImpl.schemas
             , errors := extraImpl.errors
             , validateInput := extraImpl.validateInput
             , validateOutput := extraImpl.validateOutput
             , run := extraImpl.withDependencies depsSample } : ServiceCommand))
            ∈ factory depsSample := by
  refine ⟨_, rfl, ?_, ?_⟩
  · exact (serviceContract_factory_iterates_implementations sampleContracts
      sampleImplementationsExtra depsSample _ rfl).1.trans rfl
  · exact (serviceContract_factory_iterates_implementations sampleContracts
      sampleImplementationsExtra depsSample _ rfl).2 "extra" extraImpl
      (List.mem_cons_of_mem _ (List.mem_cons_self _ _))
